import Mathlib

/-!
Verification of the MPT (Maximum Phonation Time) processing core of this
repository (`mpt_processor.py`) against its natural-language specification.

Shallow embedding conventions:
* 16-bit PCM samples are modelled as `Int` (the decoder's byte-pairing is
  outside the core); audio buffers are `List Int`.
* Python floats are modelled as exact rationals `ℚ`; all quantities the
  detector manipulates (frame times, thresholds) are small exact decimals.
* The external `webrtcvad` Voice Activity Oracle is an injected parameter
  `Nat → List Int → Option Bool` (aggressiveness, frame samples ↦ judgment);
  `none` models the oracle raising/failing on a frame, which the source's
  `try/except` converts to `False`.
* Python dicts returned by the core become structures; an `Option` field
  that is `none` models the corresponding dict key being absent.
-/

set_option maxRecDepth 2000

namespace MPT

/-- Frame size in samples: `int(16000 * 30 / 1000)` (mpt_processor.py line 117). -/
def FRAME_SIZE : Nat := 480

/-- Silence timeout in seconds (line 122): 1.5 s. -/
def SILENCE_TIMEOUT : ℚ := 3 / 2

/-- Minimum valid MPT in seconds (line 123): 1.0 s. -/
def MIN_SPEECH_DURATION : ℚ := 1

/-- Number of calibration frames, `int(CALIBRATION_DURATION * SAMPLE_RATE / FRAME_SIZE)`
(line 129): `int(0.5 * 16000 / 480) = int(16.66...) = 16` — Python `int()`
truncates, it does not round up. -/
def CALIBRATION_FRAMES : Nat := 16

/-- Start time of frame `n` in seconds: `frame_num * FRAME_DURATION_MS / 1000.0`
(line 162). -/
def frameTime (n : Nat) : ℚ := (n : ℚ) * 30 / 1000

/-- Clinical classification record returned by `classify_mpt` (lines 294-348). -/
structure Classification where
  urgency : String
  esi_level : Nat
  category : String
  action : String
  color : String
deriving DecidableEq

/-- Translation of `classify_mpt` (mpt_processor.py lines 294-348). -/
def classify_mpt (mpt_value : ℚ) : Classification :=
  if mpt_value < 8 then
    { urgency := "IMMEDIATE", esi_level := 1,
      category := "Severe respiratory compromise",
      action := "Immediate medical intervention required", color := "RED" }
  else if mpt_value < 10 then
    { urgency := "URGENT", esi_level := 2,
      category := "Significant respiratory impairment",
      action := "Urgent medical evaluation needed", color := "ORANGE" }
  else if mpt_value < 15 then
    { urgency := "CONCERNING", esi_level := 2,
      category := "Below normal respiratory reserve",
      action := "Medical evaluation recommended", color := "YELLOW" }
  else if mpt_value < 20 then
    { urgency := "BORDERLINE", esi_level := 3,
      category := "Lower end of normal",
      action := "Monitor for changes", color := "YELLOW" }
  else
    { urgency := "NORMAL", esi_level := 4,
      category := "Normal respiratory reserve",
      action := "No immediate concerns", color := "GREEN" }

/-- Translation of `determine_vad_aggressiveness` (mpt_processor.py lines 261-291). -/
def determine_vad_aggressiveness (noise_level : ℚ) : Nat :=
  if noise_level < 1 / 100 then 1
  else if noise_level < 3 / 100 then 2
  else if noise_level < 5 / 100 then 3
  else 3

/-- C4: `classify_mpt` is a total function of the duration (a Lean `def` on all
of `ℚ`, hence total and deterministic), whose buckets are exactly the half-open
intervals with boundaries 8, 10, 15, 20, boundaries belonging to the upper
bucket (lower-bucket inclusion via strict `<`): urgency is IMMEDIATE iff
`d < 8`, URGENT iff `8 ≤ d < 10`, CONCERNING iff `10 ≤ d < 15`, BORDERLINE iff
`15 ≤ d < 20`, NORMAL iff `20 ≤ d`; the ESI levels and colors attach to the
same intervals (ESI 2 and YELLOW each cover two adjacent buckets). -/
theorem classify_mpt_buckets (d : ℚ) :
    ((classify_mpt d).urgency = "IMMEDIATE" ↔ d < 8) ∧
    ((classify_mpt d).urgency = "URGENT" ↔ 8 ≤ d ∧ d < 10) ∧
    ((classify_mpt d).urgency = "CONCERNING" ↔ 10 ≤ d ∧ d < 15) ∧
    ((classify_mpt d).urgency = "BORDERLINE" ↔ 15 ≤ d ∧ d < 20) ∧
    ((classify_mpt d).urgency = "NORMAL" ↔ 20 ≤ d) ∧
    ((classify_mpt d).esi_level = 1 ↔ d < 8) ∧
    ((classify_mpt d).esi_level = 2 ↔ 8 ≤ d ∧ d < 15) ∧
    ((classify_mpt d).esi_level = 3 ↔ 15 ≤ d ∧ d < 20) ∧
    ((classify_mpt d).esi_level = 4 ↔ 20 ≤ d) ∧
    ((classify_mpt d).color = "RED" ↔ d < 8) ∧
    ((classify_mpt d).color = "ORANGE" ↔ 8 ≤ d ∧ d < 10) ∧
    ((classify_mpt d).color = "YELLOW" ↔ 10 ≤ d ∧ d < 20) ∧
    ((classify_mpt d).color = "GREEN" ↔ 20 ≤ d) := by
  unfold classify_mpt
  split_ifs with h1 h2 h3 h4 <;>
    refine ⟨?_, ?_, ?_, ?_, ?_, ?_, ?_, ?_, ?_, ?_, ?_, ?_, ?_⟩ <;>
      first
        | exact iff_of_true rfl (by linarith)
        | exact iff_of_true rfl ⟨by linarith, by linarith⟩
        | exact iff_of_false (by decide) (by intro h; linarith)
        | exact iff_of_false (by decide) (by rintro ⟨ha, hb⟩; linarith)

/-- Witness for `classify_mpt_buckets` at the boundary inputs named in the spec. -/
theorem classify_mpt_buckets_witness :
    (classify_mpt (799 / 100)).urgency = "IMMEDIATE" ∧
    (classify_mpt 8).urgency = "URGENT" ∧
    (classify_mpt (1999 / 100)).urgency = "BORDERLINE" ∧
    (classify_mpt 20).urgency = "NORMAL" :=
  ⟨(classify_mpt_buckets (799 / 100)).1.mpr (by norm_num),
   (classify_mpt_buckets 8).2.1.mpr (by norm_num),
   (classify_mpt_buckets (1999 / 100)).2.2.2.1.mpr (by norm_num),
   (classify_mpt_buckets 20).2.2.2.2.1.mpr (by norm_num)⟩

/-- C5: the noise-to-sensitivity mapping is total (a Lean `def` on all of `ℚ`)
with lower-bucket inclusion via strict `<`: it yields 1 iff `noise < 0.01`,
2 iff `0.01 ≤ noise < 0.03`, and 3 iff `0.03 ≤ noise` (which merges the source's
`[0.03, 0.05)` branch and its `≥ 0.05` branch, both returning 3); it is
monotone non-decreasing and capped at 3. -/
theorem determine_vad_aggressiveness_spec (x a b : ℚ) (hab : a ≤ b) :
    (determine_vad_aggressiveness x = 1 ↔ x < 1 / 100) ∧
    (determine_vad_aggressiveness x = 2 ↔ 1 / 100 ≤ x ∧ x < 3 / 100) ∧
    (determine_vad_aggressiveness x = 3 ↔ 3 / 100 ≤ x) ∧
    determine_vad_aggressiveness a ≤ determine_vad_aggressiveness b ∧
    determine_vad_aggressiveness x ≤ 3 := by
  refine ⟨?_, ?_, ?_, ?_, ?_⟩ <;> unfold determine_vad_aggressiveness
  · split_ifs with h1 h2 h3 <;>
      first
        | exact iff_of_true rfl (by linarith)
        | exact iff_of_false (by decide) (by intro h; linarith)
  · split_ifs with h1 h2 h3 <;>
      first
        | exact iff_of_true rfl ⟨by linarith, by linarith⟩
        | exact iff_of_false (by decide) (by rintro ⟨ha, hb⟩; linarith)
  · split_ifs with h1 h2 h3 <;>
      first
        | exact iff_of_true rfl (by linarith)
        | exact iff_of_false (by decide) (by intro h; linarith)
  · split_ifs with h1 h2 h3 h4 h5 h6 h7 h8 <;> first | omega | linarith
  · split_ifs <;> omega

/-- Witness for `determine_vad_aggressiveness_spec`: the spec's boundary table,
obtained from the theorem at concrete inputs. -/
theorem determine_vad_aggressiveness_spec_witness :
    (0 : ℚ) ≤ 6 / 100 ∧
    determine_vad_aggressiveness (99 / 10000) = 1 ∧
    determine_vad_aggressiveness (1 / 100) = 2 ∧
    determine_vad_aggressiveness (299 / 10000) = 2 ∧
    determine_vad_aggressiveness (3 / 100) = 3 ∧
    determine_vad_aggressiveness (5 / 100) = 3 ∧
    determine_vad_aggressiveness 0 ≤ determine_vad_aggressiveness (6 / 100) :=
  ⟨by norm_num,
   (determine_vad_aggressiveness_spec (99 / 10000) 0 (6 / 100) (by norm_num)).1.mpr
     (by norm_num),
   (determine_vad_aggressiveness_spec (1 / 100) 0 (6 / 100) (by norm_num)).2.1.mpr
     (by norm_num),
   (determine_vad_aggressiveness_spec (299 / 10000) 0 (6 / 100) (by norm_num)).2.1.mpr
     (by norm_num),
   (determine_vad_aggressiveness_spec (3 / 100) 0 (6 / 100) (by norm_num)).2.2.1.mpr
     (by norm_num),
   (determine_vad_aggressiveness_spec (5 / 100) 0 (6 / 100) (by norm_num)).2.2.1.mpr
     (by norm_num),
   (determine_vad_aggressiveness_spec 0 0 (6 / 100) (by norm_num)).2.2.2.1⟩

/-! ## The speech boundary detector (mpt_processor.py lines 144-200) -/

/-- Mutable scan state of `detect_speech_with_calibration` (lines 144-149). -/
structure DetectState where
  speech_start_time : Option ℚ
  last_speech_time : Option ℚ
  is_speaking : Bool
  mpt_duration : ℚ
  speech_frames : Nat
deriving DecidableEq

/-- Initial scan state (lines 144-149): `None/None/False/0/0`. -/
def initState : DetectState :=
  { speech_start_time := none, last_speech_time := none, is_speaking := false,
    mpt_duration := 0, speech_frames := 0 }

/-- One iteration of the frame loop body for a frame starting at time `t` with
judgment `is_speech` (lines 170-195). Returns the updated state and whether the
loop `break`s. In the finalization branch the source computes
`last_speech_time - speech_start_time`; `speech_start_time` is always set there
(see `detectLoop_resultInv`), the `getD 0` only totalizes the `Option`. -/
def stepFrame (s : DetectState) (t : ℚ) (is_speech : Bool) : DetectState × Bool :=
  if is_speech then
    let s1 := { s with speech_frames := s.speech_frames + 1 }
    let s2 := if s1.is_speaking then s1
              else { s1 with is_speaking := true, speech_start_time := some t }
    ({ s2 with last_speech_time := some t }, false)
  else
    match s.is_speaking, s.last_speech_time with
    | true, some lt =>
      if SILENCE_TIMEOUT ≤ t - lt then
        ({ s with mpt_duration := lt - s.speech_start_time.getD 0,
                  is_speaking := false }, true)
      else (s, false)
    | true, none => (s, false)
    | false, _ => (s, false)

/-- The frame loop (lines 151-195) over the per-frame boolean judgments, the
way §4.2 of the spec describes it: frame `n` carries time `frameTime n`; a
`break` from `stepFrame` stops consuming frames. -/
def detectLoop : List Bool → Nat → DetectState → DetectState
  | [], _, s => s
  | b :: rest, n, s =>
    match stepFrame s (frameTime n) b with
    | (s2, true) => s2
    | (s2, false) => detectLoop rest (n + 1) s2

/-- The source's per-frame `try/except` (lines 165-168): an oracle failure
(`none`) is judged as `is_speech = False`. -/
def judgeFrame (r : Option Bool) : Bool :=
  match r with
  | some b => b
  | none => false

/-- The frame loop as written in the source (lines 151-195): frames are sample
slices, the judgment comes from the oracle through `judgeFrame`, and an
incomplete frame `break`s (line 158). -/
def detectLoopOracle (vad : List Int → Option Bool) :
    List (List Int) → Nat → DetectState → DetectState
  | [], _, s => s
  | f :: rest, n, s =>
    if f.length < FRAME_SIZE then s
    else
      match stepFrame s (frameTime n) (judgeFrame (vad f)) with
      | (s2, true) => s2
      | (s2, false) => detectLoopOracle vad rest (n + 1) s2

/-- End-of-scan finalization (lines 197-200): if the clip ended while still
speaking, use `last_speech_time - speech_start_time`; otherwise keep the
`mpt_duration` set by the loop (0 if no interval was finalized). -/
def finalizeMpt (s : DetectState) : ℚ :=
  match s.is_speaking, s.speech_start_time, s.last_speech_time with
  | true, some st, some lt => lt - st
  | _, _, _ => s.mpt_duration

/-- Invariant of the in-loop states: the loop has not finalized (`mpt = 0`
until a `break`, and a `break` exits), `Idle` states carry no times, and
`Speaking` states carry ordered times bounded by the next frame's time. -/
def LoopInv (n : Nat) (s : DetectState) : Prop :=
  s.mpt_duration = 0 ∧
  (s.is_speaking = false → s.speech_start_time = none ∧ s.last_speech_time = none) ∧
  (s.is_speaking = true → ∃ st lt, s.speech_start_time = some st ∧
    s.last_speech_time = some lt ∧ 0 ≤ st ∧ st ≤ lt ∧ lt ≤ frameTime n)

/-- Facts about the state the scan leaves behind (whether or not it `break`s). -/
def ResultInv (s : DetectState) : Prop :=
  0 ≤ s.mpt_duration ∧
  (∀ st lt, s.speech_start_time = some st → s.last_speech_time = some lt → st ≤ lt) ∧
  (s.is_speaking = true → ∃ st lt, s.speech_start_time = some st ∧
    s.last_speech_time = some lt ∧ st ≤ lt) ∧
  (s.mpt_duration ≠ 0 → ∃ st lt, s.speech_start_time = some st ∧
    s.last_speech_time = some lt ∧ s.mpt_duration = lt - st)

theorem frameTime_nonneg (n : Nat) : 0 ≤ frameTime n := by
  unfold frameTime; positivity

theorem frameTime_mono {m n : Nat} (h : m ≤ n) : frameTime m ≤ frameTime n := by
  unfold frameTime
  have : (m : ℚ) ≤ (n : ℚ) := by exact_mod_cast h
  linarith

theorem initState_loopInv (n : Nat) : LoopInv n initState := by
  refine ⟨rfl, fun _ => ⟨rfl, rfl⟩, fun h => ?_⟩
  simp [initState] at h

/-- A `LoopInv` state satisfies `ResultInv` as it stands. -/
theorem loopInv_resultInv {n : Nat} {s : DetectState} (h : LoopInv n s) :
    ResultInv s := by
  obtain ⟨hmpt, hidle, hspeak⟩ := h
  refine ⟨by rw [hmpt], ?_, ?_, ?_⟩
  · intro st lt hst hlt
    cases hsp : s.is_speaking with
    | false => rw [(hidle hsp).1] at hst; exact absurd hst (by simp)
    | true =>
      obtain ⟨st', lt', hst', hlt', _, hord, _⟩ := hspeak hsp
      rw [hst'] at hst; rw [hlt'] at hlt
      injection hst with e1; injection hlt with e2
      rw [← e1, ← e2]; exact hord
  · intro hsp
    obtain ⟨st, lt, hst, hlt, _, hord, _⟩ := hspeak hsp
    exact ⟨st, lt, hst, hlt, hord⟩
  · intro hne; exact absurd hmpt hne

/-- Unfolding equation: a speech frame while already `Speaking` refreshes
`last_speech_time` and counts the frame; no `break`. -/
theorem stepFrame_true_speaking {s : DetectState} (t : ℚ) (h : s.is_speaking = true) :
    stepFrame s t true =
      ({ s with speech_frames := s.speech_frames + 1,
                last_speech_time := some t }, false) := by
  simp [stepFrame, h]

/-- Unfolding equation: a speech frame while `Idle` starts a speech interval. -/
theorem stepFrame_true_idle {s : DetectState} (t : ℚ) (h : s.is_speaking = false) :
    stepFrame s t true =
      ({ s with speech_frames := s.speech_frames + 1, is_speaking := true,
                speech_start_time := some t, last_speech_time := some t }, false) := by
  simp [stepFrame, h]

/-- Unfolding equation: a non-speech frame while `Idle` changes nothing. -/
theorem stepFrame_false_idle {s : DetectState} (t : ℚ) (h : s.is_speaking = false) :
    stepFrame s t false = (s, false) := by
  simp [stepFrame, h]

/-- Unfolding equation: a non-speech frame while `Speaking`, with the silence
timeout reached, finalizes the interval and `break`s. -/
theorem stepFrame_false_timeout {s : DetectState} {t lt : ℚ}
    (h : s.is_speaking = true) (h2 : s.last_speech_time = some lt)
    (h3 : SILENCE_TIMEOUT ≤ t - lt) :
    stepFrame s t false =
      ({ s with mpt_duration := lt - s.speech_start_time.getD 0,
                is_speaking := false }, true) := by
  simp [stepFrame, h, h2, h3]

/-- Unfolding equation: a non-speech frame while `Speaking`, below the silence
timeout, changes nothing. -/
theorem stepFrame_false_noTimeout {s : DetectState} {t lt : ℚ}
    (h : s.is_speaking = true) (h2 : s.last_speech_time = some lt)
    (h3 : ¬ SILENCE_TIMEOUT ≤ t - lt) :
    stepFrame s t false = (s, false) := by
  simp [stepFrame, h, h2, h3]

/-- Unfolding equation: the loop stops at a `break`ing frame. -/
theorem detectLoop_cons_break {b : Bool} {rest : List Bool} {n : Nat}
    {s s' : DetectState} (h : stepFrame s (frameTime n) b = (s', true)) :
    detectLoop (b :: rest) n s = s' := by
  conv_lhs => unfold detectLoop
  rw [h]

/-- Unfolding equation: the loop continues past a non-`break`ing frame. -/
theorem detectLoop_cons_continue {b : Bool} {rest : List Bool} {n : Nat}
    {s s' : DetectState} (h : stepFrame s (frameTime n) b = (s', false)) :
    detectLoop (b :: rest) n s = detectLoop rest (n + 1) s' := by
  conv_lhs => unfold detectLoop
  rw [h]

/-- Running the loop from a state satisfying the loop invariant yields a state
satisfying `ResultInv`; in particular `speech_start_time` is always set when
the finalization branch fires. -/
theorem detectLoop_resultInv :
    ∀ (flags : List Bool) (n : Nat) (s : DetectState),
      LoopInv n s → ResultInv (detectLoop flags n s)
  | [], n, s, h => loopInv_resultInv h
  | b :: rest, n, s, h => by
    obtain ⟨hmpt, hidle, hspeak⟩ := h
    cases b with
    | true =>
      cases hsp : s.is_speaking with
      | true =>
        obtain ⟨st, lt, hst, hlt, hst0, hord, hub⟩ := hspeak hsp
        rw [detectLoop_cons_continue (stepFrame_true_speaking (frameTime n) hsp)]
        apply detectLoop_resultInv rest (n + 1)
        refine ⟨by simpa using hmpt, by intro hf; simp [hsp] at hf, fun _ => ?_⟩
        exact ⟨st, frameTime n, by simpa using hst, by simp, hst0,
          le_trans hord hub, frameTime_mono (Nat.le_succ n)⟩
      | false =>
        rw [detectLoop_cons_continue (stepFrame_true_idle (frameTime n) hsp)]
        apply detectLoop_resultInv rest (n + 1)
        refine ⟨by simpa using hmpt, by intro hf; simp at hf, fun _ => ?_⟩
        exact ⟨frameTime n, frameTime n, by simp, by simp, frameTime_nonneg n,
          le_refl _, frameTime_mono (Nat.le_succ n)⟩
    | false =>
      cases hsp : s.is_speaking with
      | false =>
        rw [detectLoop_cons_continue (stepFrame_false_idle (frameTime n) hsp)]
        exact detectLoop_resultInv rest (n + 1) s
          ⟨hmpt, hidle, fun hf => absurd hf (by simp [hsp])⟩
      | true =>
        obtain ⟨st, lt, hst, hlt, hst0, hord, hub⟩ := hspeak hsp
        by_cases hto : SILENCE_TIMEOUT ≤ frameTime n - lt
        · rw [detectLoop_cons_break (stepFrame_false_timeout hsp hlt hto)]
          have hgd : s.speech_start_time.getD 0 = st := by rw [hst]; rfl
          refine ⟨?_, ?_, ?_, ?_⟩
          · simp only [hgd]; linarith
          · intro st' lt' hst' hlt'
            simp only [] at hst' hlt'
            rw [hst] at hst'; rw [hlt] at hlt'
            injection hst' with e1; injection hlt' with e2
            rw [← e1, ← e2]; exact hord
          · intro hf; simp at hf
          · intro _
            exact ⟨st, lt, by simpa using hst, by simpa using hlt, by simp [hgd]⟩
        · rw [detectLoop_cons_continue (stepFrame_false_noTimeout hsp hlt hto)]
          exact detectLoop_resultInv rest (n + 1) s
            ⟨hmpt, hidle, fun _ => ⟨st, lt, hst, hlt, hst0, hord,
              le_trans hub (frameTime_mono (Nat.le_succ n))⟩⟩

/-- The scan from the initial state satisfies `ResultInv`. -/
theorem scan_resultInv (flags : List Bool) :
    ResultInv (detectLoop flags 0 initState) :=
  detectLoop_resultInv flags 0 initState (initState_loopInv 0)

/-- The finalized duration of a `ResultInv` state is non-negative. -/
theorem resultInv_finalize_nonneg {s : DetectState} (h : ResultInv s) :
    0 ≤ finalizeMpt s := by
  obtain ⟨hmpt, _, hspeak, _⟩ := h
  unfold finalizeMpt
  cases hsp : s.is_speaking with
  | false =>
    cases s.speech_start_time <;> cases s.last_speech_time <;> exact hmpt
  | true =>
    obtain ⟨st, lt, hst, hlt, hord⟩ := hspeak hsp
    rw [hst, hlt]
    simpa using hord

/-- Substituting `false` for failed oracle judgments turns the source's frame
loop into the boolean-judgment state machine, provided every frame is complete
(which is how `detect_speech_with_calibration` slices them). -/
theorem detectLoopOracle_eq_detectLoop (vad : List Int → Option Bool) :
    ∀ (frames : List (List Int)) (n : Nat) (s : DetectState),
      (∀ f ∈ frames, FRAME_SIZE ≤ f.length) →
      detectLoopOracle vad frames n s =
        detectLoop (frames.map fun f => (vad f).getD false) n s
  | [], _, _, _ => rfl
  | f :: rest, n, s, h => by
    have hf : ¬ f.length < FRAME_SIZE :=
      not_lt.mpr (h f (List.mem_cons_self f rest))
    have hrest : ∀ g ∈ rest, FRAME_SIZE ≤ g.length :=
      fun g hg => h g (List.mem_cons_of_mem f hg)
    have hj : judgeFrame (vad f) = (vad f).getD false := by
      cases vad f <;> rfl
    rw [List.map_cons]
    cases hr : stepFrame s (frameTime n) ((vad f).getD false) with
    | mk s2 brk =>
      cases brk with
      | true =>
        rw [detectLoop_cons_break hr]
        conv_lhs => unfold detectLoopOracle
        rw [if_neg hf, hj, hr]
      | false =>
        rw [detectLoop_cons_continue hr]
        conv_lhs => unfold detectLoopOracle
        rw [if_neg hf, hj, hr]
        exact detectLoopOracle_eq_detectLoop vad rest (n + 1) s2 hrest

/-- C1: if the detector is `Speaking` (with `speech_start_time = st` and
`last_speech_time = lt` set) and consumes a non-speech frame at time
`frameTime i` with `frameTime i - lt ≥ 1.5 s`, the scan finalizes
`mpt_duration = lt - st`, returns to `Idle`, and stops consuming frames: the
scan's result is the finalized state, independent of every frame in `rest`
after the boundary. -/
theorem silence_timeout_finalizes (s : DetectState) (i : Nat) (rest : List Bool)
    (st lt : ℚ) (hsp : s.is_speaking = true)
    (hst : s.speech_start_time = some st) (hlt : s.last_speech_time = some lt)
    (hto : SILENCE_TIMEOUT ≤ frameTime i - lt) :
    detectLoop (false :: rest) i s =
      { s with mpt_duration := lt - st, is_speaking := false } ∧
    (detectLoop (false :: rest) i s).mpt_duration = lt - st ∧
    (detectLoop (false :: rest) i s).is_speaking = false ∧
    detectLoop (false :: rest) i s = detectLoop [false] i s := by
  have hgd : s.speech_start_time.getD 0 = st := by rw [hst]; rfl
  have hb := @detectLoop_cons_break false rest i s _
    (stepFrame_false_timeout hsp hlt hto)
  have hb1 := @detectLoop_cons_break false [] i s _
    (stepFrame_false_timeout hsp hlt hto)
  rw [hb, hb1, hgd]
  exact ⟨rfl, rfl, rfl, rfl⟩

/-- Witness for `silence_timeout_finalizes`: a concrete `Speaking` state whose
last speech was at 0.03 s, hit by a non-speech frame at 1.53 s; trailing frames
`[true, true]` do not affect the finalized result. -/
theorem silence_timeout_finalizes_witness :
    ({ speech_start_time := some 0, last_speech_time := some (3 / 100),
       is_speaking := true, mpt_duration := 0, speech_frames := 2 } :
        DetectState).is_speaking = true ∧
    SILENCE_TIMEOUT ≤ frameTime 51 - 3 / 100 ∧
    (detectLoop [false, true, true] 51
      { speech_start_time := some 0, last_speech_time := some (3 / 100),
        is_speaking := true, mpt_duration := 0, speech_frames := 2 }).mpt_duration =
      3 / 100 - 0 :=
  ⟨rfl, by norm_num [SILENCE_TIMEOUT, frameTime],
   (silence_timeout_finalizes
     { speech_start_time := some 0, last_speech_time := some (3 / 100),
       is_speaking := true, mpt_duration := 0, speech_frames := 2 }
     51 [true, true] 0 (3 / 100) rfl rfl rfl
     (by norm_num [SILENCE_TIMEOUT, frameTime])).2.1⟩

/-- C2: a frame sequence that ends while the detector is still `Speaking`
finalizes `mpt = last_speech_time - speech_start_time` (both are necessarily
set); a sequence with no speech frame at all yields `mpt = 0`. -/
theorem end_of_clip_finalizes (flags : List Bool) (k : Nat) :
    ((detectLoop flags 0 initState).is_speaking = true →
      ∃ st lt, (detectLoop flags 0 initState).speech_start_time = some st ∧
        (detectLoop flags 0 initState).last_speech_time = some lt ∧
        finalizeMpt (detectLoop flags 0 initState) = lt - st) ∧
    finalizeMpt (detectLoop (List.replicate k false) 0 initState) = 0 := by
  constructor
  · intro hsp
    obtain ⟨_, _, hspeak, _⟩ := scan_resultInv flags
    obtain ⟨st, lt, hst, hlt, hord⟩ := hspeak hsp
    refine ⟨st, lt, hst, hlt, ?_⟩
    unfold finalizeMpt
    rw [hsp, hst, hlt]
  · have hconst : ∀ (k n : Nat),
        detectLoop (List.replicate k false) n initState = initState := by
      intro k
      induction k with
      | zero => intro n; rfl
      | succ k ih =>
        intro n
        rw [List.replicate_succ,
          detectLoop_cons_continue (stepFrame_false_idle (frameTime n) rfl)]
        exact ih (n + 1)
    rw [hconst k 0]
    rfl

/-- Evaluation of the scan on a single speech frame. -/
theorem scan_one_true :
    detectLoop [true] 0 initState =
      { speech_start_time := some 0, last_speech_time := some 0,
        is_speaking := true, mpt_duration := 0, speech_frames := 1 } := by
  rw [detectLoop_cons_continue (stepFrame_true_idle (frameTime 0) rfl)]
  norm_num [detectLoop, initState, frameTime]

/-- Evaluation of the scan on two speech frames. -/
theorem scan_two_true :
    detectLoop [true, true] 0 initState =
      { speech_start_time := some 0, last_speech_time := some (3 / 100),
        is_speaking := true, mpt_duration := 0, speech_frames := 2 } := by
  rw [detectLoop_cons_continue (stepFrame_true_idle (frameTime 0) rfl),
    detectLoop_cons_continue (stepFrame_true_speaking (frameTime 1) rfl)]
  norm_num [detectLoop, initState, frameTime]

/-- Witness for `end_of_clip_finalizes`: the one-speech-frame clip ends while
`Speaking` and finalizes from the stored times; three non-speech frames give 0. -/
theorem end_of_clip_finalizes_witness :
    (detectLoop [true] 0 initState).is_speaking = true ∧
    (∃ st lt, (detectLoop [true] 0 initState).speech_start_time = some st ∧
      (detectLoop [true] 0 initState).last_speech_time = some lt ∧
      finalizeMpt (detectLoop [true] 0 initState) = lt - st) ∧
    finalizeMpt (detectLoop (List.replicate 3 false) 0 initState) = 0 := by
  refine ⟨?_, ?_, (end_of_clip_finalizes [true] 3).2⟩
  · rw [scan_one_true]
  · exact (end_of_clip_finalizes [true] 3).1 (by rw [scan_one_true])

/-- C8: state invariants of every run. For every prefix of every judged frame
sequence (these are exactly the states the scan passes through, since a
`break` ends the run), whenever both times are set, `speech_start_time ≤
last_speech_time`; `mpt_duration` is never negative, and whenever it was
finalized by the silence-timeout branch (`mpt_duration ≠ 0`) it equals
`last_speech_time - speech_start_time` for the stored times; the end-of-clip
finalization likewise produces `last - start`, never negative. -/
theorem detector_invariants (flags : List Bool) (n : Nat) :
    (∀ st lt,
      (detectLoop (flags.take n) 0 initState).speech_start_time = some st →
      (detectLoop (flags.take n) 0 initState).last_speech_time = some lt →
      st ≤ lt) ∧
    0 ≤ (detectLoop (flags.take n) 0 initState).mpt_duration ∧
    ((detectLoop (flags.take n) 0 initState).mpt_duration ≠ 0 →
      ∃ st lt,
        (detectLoop (flags.take n) 0 initState).speech_start_time = some st ∧
        (detectLoop (flags.take n) 0 initState).last_speech_time = some lt ∧
        (detectLoop (flags.take n) 0 initState).mpt_duration = lt - st) ∧
    ((detectLoop (flags.take n) 0 initState).is_speaking = true →
      ∃ st lt,
        (detectLoop (flags.take n) 0 initState).speech_start_time = some st ∧
        (detectLoop (flags.take n) 0 initState).last_speech_time = some lt ∧
        finalizeMpt (detectLoop (flags.take n) 0 initState) = lt - st) ∧
    0 ≤ finalizeMpt (detectLoop (flags.take n) 0 initState) := by
  obtain ⟨hmpt, hord, hspeak, hfin⟩ := scan_resultInv (flags.take n)
  refine ⟨hord, hmpt, hfin, ?_, resultInv_finalize_nonneg ⟨hmpt, hord, hspeak, hfin⟩⟩
  intro hsp
  obtain ⟨st, lt, hst, hlt, _⟩ := hspeak hsp
  refine ⟨st, lt, hst, hlt, ?_⟩
  unfold finalizeMpt
  rw [hsp, hst, hlt]

/-- Witness for `detector_invariants` on the two-speech-frame prefix: both
times are set and ordered, and the state is still `Speaking`. -/
theorem detector_invariants_witness :
    (detectLoop ([true, true].take 2) 0 initState).speech_start_time = some 0 ∧
    (detectLoop ([true, true].take 2) 0 initState).last_speech_time =
      some (3 / 100) ∧
    (0 : ℚ) ≤ 3 / 100 ∧
    (detectLoop ([true, true].take 2) 0 initState).is_speaking = true ∧
    (∃ st lt,
      (detectLoop ([true, true].take 2) 0 initState).speech_start_time = some st ∧
      (detectLoop ([true, true].take 2) 0 initState).last_speech_time = some lt ∧
      finalizeMpt (detectLoop ([true, true].take 2) 0 initState) = lt - st) := by
  have htake : ([true, true].take 2) = [true, true] := rfl
  refine ⟨?_, ?_, ?_, ?_, ?_⟩
  · rw [htake, scan_two_true]
  · rw [htake, scan_two_true]
  · exact (detector_invariants [true, true] 2).1 0 (3 / 100)
      (by rw [htake, scan_two_true]) (by rw [htake, scan_two_true])
  · rw [htake, scan_two_true]
  · exact (detector_invariants [true, true] 2).2.2.2.1
      (by rw [htake, scan_two_true])

/-- C9: an oracle failure on a frame is treated exactly as an `is_speech =
false` judgment for that frame and the scan continues; no failure escapes. Two
oracles whose judgments agree after failure-to-`false` substitution produce
identical scans, and the scan over complete frames equals the total boolean
state machine run on the substituted judgments (so a failing oracle can never
make the detector's result diverge from the `false`-judgment run, let alone
raise). -/
theorem oracle_failure_judged_false (vad vad' : List Int → Option Bool)
    (frames : List (List Int)) (n : Nat) (s : DetectState)
    (hagree : ∀ f, (vad f).getD false = (vad' f).getD false)
    (hcomplete : ∀ f ∈ frames, FRAME_SIZE ≤ f.length) :
    detectLoopOracle vad frames n s = detectLoopOracle vad' frames n s ∧
    detectLoopOracle vad frames n s =
      detectLoop (frames.map fun f => (vad f).getD false) n s := by
  have h1 := detectLoopOracle_eq_detectLoop vad frames n s hcomplete
  have h2 := detectLoopOracle_eq_detectLoop vad' frames n s hcomplete
  have hmap : (frames.map fun f => (vad f).getD false) =
      (frames.map fun f => (vad' f).getD false) :=
    List.map_congr_left fun f _ => hagree f
  exact ⟨by rw [h1, h2, hmap], h1⟩

/-- Witness for `oracle_failure_judged_false`: an always-failing oracle scans a
single complete silent frame exactly like the always-`false` oracle. -/
theorem oracle_failure_judged_false_witness :
    (∀ f : List Int, ((fun _ => (none : Option Bool)) f).getD false =
      ((fun _ => some false) f).getD false) ∧
    (∀ f ∈ [List.replicate 480 (0 : Int)], FRAME_SIZE ≤ f.length) ∧
    detectLoopOracle (fun _ => none) [List.replicate 480 (0 : Int)] 0 initState =
      detectLoopOracle (fun _ => some false) [List.replicate 480 (0 : Int)] 0
        initState :=
  ⟨fun _ => rfl,
   by intro f hf; simp only [List.mem_singleton] at hf; subst hf
      simp [FRAME_SIZE],
   (oracle_failure_judged_false (fun _ => none) (fun _ => some false)
     [List.replicate 480 (0 : Int)] 0 initState (fun _ => rfl)
     (by intro f hf; simp only [List.mem_singleton] at hf; subst hf
         simp [FRAME_SIZE])).1⟩

/-! ## Noise calibration (mpt_processor.py lines 233-258) -/

/-- `numpy` absolute value on an `int16` array element (line 250):
`np.abs` keeps the `int16` dtype, so `abs(-32768)` overflows back to
`-32768`; every other value takes its usual absolute value. -/
def i16abs (x : Int) : Int := if x = -32768 then -32768 else |x|

/-- The sample slice of frame `n`: `audio_data[start:end]` with
`start = n * bytes_per_frame` (lines 153-155 and 243-245), in samples rather
than bytes. -/
def frameSlice (audio : List Int) (n : Nat) : List Int :=
  (audio.drop (n * FRAME_SIZE)).take FRAME_SIZE

/-- `np.abs(samples).mean()` (line 250) as an exact rational (`numpy`'s
float64 mean of at most 480 16-bit magnitudes is exact). -/
def meanAbs (frame : List Int) : ℚ :=
  (((frame.map i16abs).sum : Int) : ℚ) / (frame.length : ℚ)

/-- The `noise_samples` list built by `calibrate_noise_level` (lines 240-251):
one mean amplitude per complete frame among the first
`min(calibration_frames, len(audio_data) // bytes_per_frame)` frames. -/
def noise_samples (audio : List Int) (calibration_frames : Nat) : List ℚ :=
  (List.range (min calibration_frames (audio.length / FRAME_SIZE))).filterMap
    (fun n =>
      if (frameSlice audio n).length = FRAME_SIZE
      then some (meanAbs (frameSlice audio n)) else none)

/-- Translation of `calibrate_noise_level` (lines 233-258): the mean of the
per-frame mean amplitudes normalized by 32768, or the 0.01 default when no
calibration frame is available. -/
def calibrate_noise_level (audio : List Int) (calibration_frames : Nat) : ℚ :=
  if (noise_samples audio calibration_frames).length ≠ 0 then
    ((noise_samples audio calibration_frames).sum /
      ((noise_samples audio calibration_frames).length : ℚ)) / 32768
  else 1 / 100

/-- The specification's per-frame measure (§4.1): mean absolute sample
amplitude, with the mathematical absolute value. -/
def specMeanAbs (frame : List Int) : ℚ :=
  (((frame.map (fun x => |x|)).sum : Int) : ℚ) / (frame.length : ℚ)

/-- The specification's calibration recipe (§4.1), parameterized by the
claimed number of calibration frames `k`: the first `min(k, available)`
frames' mean absolute amplitudes. -/
def specMeans (k : Nat) (audio : List Int) : List ℚ :=
  (List.range (min k (audio.length / FRAME_SIZE))).map
    (fun n => specMeanAbs (frameSlice audio n))

/-- The specification's calibration recipe (§4.1): average the per-frame mean
absolute amplitudes of the first `min(k, available)` frames and normalize by
32768; default 0.01 when no calibration frame is available. -/
def noiseLevel_spec (k : Nat) (audio : List Int) : ℚ :=
  if (specMeans k audio).length ≠ 0 then
    ((specMeans k audio).sum / ((specMeans k audio).length : ℚ)) / 32768
  else 1 / 100

/-- The calibration frame count claimed by the spec:
`ceil(0.5 s / frameDuration) = ceil(50/3) = 17`. -/
def CALIBRATION_FRAMES_ceil : Nat := 17

/-- The claimed count really is the ceiling of `0.5 s / 0.03 s`. -/
theorem calibration_frames_ceil_eq :
    (⌈(1 / 2 : ℚ) / (3 / 100)⌉ : Int) = (CALIBRATION_FRAMES_ceil : Int) := by
  rw [Int.ceil_eq_iff] <;> norm_num [CALIBRATION_FRAMES_ceil]

/-- A frame index below the available frame count yields a complete slice. -/
theorem frameSlice_length_of_lt {audio : List Int} {n : Nat}
    (h : n < audio.length / FRAME_SIZE) :
    (frameSlice audio n).length = FRAME_SIZE := by
  unfold frameSlice
  rw [List.length_take, List.length_drop]
  have h2 : (n + 1) * FRAME_SIZE ≤ audio.length :=
    (Nat.le_div_iff_mul_le (by norm_num [FRAME_SIZE])).mp (Nat.succ_le_of_lt h)
  have h3 : FRAME_SIZE ≤ audio.length - n * FRAME_SIZE := by
    have : (n + 1) * FRAME_SIZE = n * FRAME_SIZE + FRAME_SIZE := by ring
    omega
  omega

/-- Every sample of a frame slice is a sample of the buffer. -/
theorem frameSlice_subset (audio : List Int) (n : Nat) :
    frameSlice audio n ⊆ audio := by
  intro x hx
  exact List.drop_subset _ _ (List.take_subset _ _ hx)

theorem list_int_sum_nonneg :
    ∀ (l : List Int), (∀ x ∈ l, 0 ≤ x) → 0 ≤ l.sum
  | [], _ => le_refl 0
  | x :: rest, h => by
    rw [List.sum_cons]
    have h1 := h x (List.mem_cons_self x rest)
    have h2 := list_int_sum_nonneg rest (fun y hy => h y (List.mem_cons_of_mem x hy))
    linarith

theorem list_int_sum_le :
    ∀ (l : List Int) (c : Int), (∀ x ∈ l, x ≤ c) → l.sum ≤ l.length * c
  | [], c, _ => by simp
  | x :: rest, c, h => by
    rw [List.sum_cons, List.length_cons]
    have h1 := h x (List.mem_cons_self x rest)
    have h2 := list_int_sum_le rest c (fun y hy => h y (List.mem_cons_of_mem x hy))
    have : ((rest.length + 1 : Nat) : Int) * c = rest.length * c + c := by
      push_cast; ring
    rw [this]
    linarith

/-- With samples in the (non-overflowing) `int16` range, a frame's `numpy`
mean amplitude is its mathematical mean amplitude, and lies in `[0, 32767]`. -/
theorem meanAbs_eq_and_bounds (frame : List Int)
    (h : ∀ x ∈ frame, -32767 ≤ x ∧ x ≤ 32767) :
    meanAbs frame = specMeanAbs frame ∧
    0 ≤ meanAbs frame ∧ meanAbs frame ≤ 32767 := by
  have habs : frame.map i16abs = frame.map (fun x => |x|) := by
    apply List.map_congr_left
    intro x hx
    have := h x hx
    unfold i16abs
    rw [if_neg (by omega)]
  have hnn : (0 : Int) ≤ (frame.map i16abs).sum := by
    apply list_int_sum_nonneg
    intro y hy
    rw [habs] at hy
    obtain ⟨x, _, rfl⟩ := List.mem_map.mp hy
    positivity
  have hub : (frame.map i16abs).sum ≤ (frame.map i16abs).length * 32767 := by
    apply list_int_sum_le
    intro y hy
    rw [habs] at hy
    obtain ⟨x, hx, rfl⟩ := List.mem_map.mp hy
    have := h x hx
    rw [abs_le]
    omega
  refine ⟨by unfold meanAbs specMeanAbs; rw [habs], ?_, ?_⟩
  · unfold meanAbs
    apply div_nonneg (by exact_mod_cast hnn) (by positivity)
  · unfold meanAbs
    rcases Nat.eq_zero_or_pos frame.length with hlen | hlen
    · rw [hlen]
      norm_num
    · rw [div_le_iff₀ (by exact_mod_cast hlen)]
      rw [List.length_map] at hub
      calc (((frame.map i16abs).sum : Int) : ℚ)
          ≤ ((frame.length * 32767 : Int) : ℚ) := by exact_mod_cast hub
        _ = 32767 * (frame.length : ℚ) := by push_cast; ring

theorem filterMap_some_eq_map (g : Nat → ℚ) :
    ∀ (l : List Nat), l.filterMap (fun n => some (g n)) = l.map g
  | [] => rfl
  | x :: rest => by
    rw [List.filterMap_cons, List.map_cons]
    exact congrArg (g x :: ·) (filterMap_some_eq_map g rest)

/-- Under the no-overflow sample range, the code's `noise_samples` list is the
spec's list of per-frame means (for the same frame count). -/
theorem noise_samples_eq_specMeans (audio : List Int) (k : Nat)
    (hrange : ∀ s ∈ audio, -32767 ≤ s ∧ s ≤ 32767) :
    noise_samples audio k = specMeans k audio := by
  unfold noise_samples specMeans
  have hguard : ∀ n ∈ List.range (min k (audio.length / FRAME_SIZE)),
      (if (frameSlice audio n).length = FRAME_SIZE
       then some (meanAbs (frameSlice audio n)) else none) =
        some (specMeanAbs (frameSlice audio n)) := by
    intro n hn
    have hlt : n < audio.length / FRAME_SIZE :=
      lt_of_lt_of_le (List.mem_range.mp hn) (min_le_right _ _)
    rw [if_pos (frameSlice_length_of_lt hlt)]
    exact congrArg some (meanAbs_eq_and_bounds (frameSlice audio n)
      (fun x hx => hrange x (frameSlice_subset audio n hx))).1
  rw [List.filterMap_congr hguard]
  exact filterMap_some_eq_map _ _

theorem list_rat_sum_nonneg :
    ∀ (l : List ℚ), (∀ x ∈ l, 0 ≤ x) → 0 ≤ l.sum
  | [], _ => le_refl 0
  | x :: rest, h => by
    rw [List.sum_cons]
    have h1 := h x (List.mem_cons_self x rest)
    have h2 := list_rat_sum_nonneg rest (fun y hy => h y (List.mem_cons_of_mem x hy))
    linarith

theorem list_rat_sum_le :
    ∀ (l : List ℚ) (c : ℚ), (∀ x ∈ l, x ≤ c) → l.sum ≤ l.length * c
  | [], c, _ => by simp
  | x :: rest, c, h => by
    rw [List.sum_cons, List.length_cons]
    have h1 := h x (List.mem_cons_self x rest)
    have h2 := list_rat_sum_le rest c (fun y hy => h y (List.mem_cons_of_mem x hy))
    have : ((rest.length + 1 : Nat) : ℚ) * c = rest.length * c + c := by
      push_cast; ring
    rw [this]
    linarith

/-- Counterexample input for C6: 16 complete frames of silence followed by one
complete frame of constant amplitude 1000 — 17 complete frames in total. -/
def calibCounterexample : List Int :=
  List.replicate 7680 0 ++ List.replicate 480 1000

theorem calibCounterexample_frames :
    calibCounterexample.length / FRAME_SIZE = 17 := by
  unfold calibCounterexample
  rw [List.length_append, List.length_replicate, List.length_replicate]
  norm_num [FRAME_SIZE]

theorem calibCounterexample_slice_quiet {n : Nat} (h : n ≤ 15) :
    frameSlice calibCounterexample n = List.replicate 480 0 := by
  unfold frameSlice calibCounterexample
  rw [List.drop_append_of_le_length
    (by rw [List.length_replicate]; simp only [FRAME_SIZE]; omega)]
  rw [List.drop_replicate]
  rw [List.take_append_of_le_length
    (by rw [List.length_replicate]; simp only [FRAME_SIZE]; omega)]
  rw [List.take_replicate]
  congr 1
  simp only [FRAME_SIZE]
  exact inf_eq_left.mpr (by omega)

theorem calibCounterexample_slice_loud :
    frameSlice calibCounterexample 16 = List.replicate 480 1000 := by
  unfold frameSlice calibCounterexample
  rw [List.drop_append_of_le_length
    (by rw [List.length_replicate]; simp only [FRAME_SIZE]; omega)]
  rw [List.drop_replicate]
  have h0 : (7680 : Nat) - 16 * FRAME_SIZE = 0 := by simp [FRAME_SIZE]
  rw [h0, List.replicate_zero, List.nil_append, List.take_replicate]
  simp [FRAME_SIZE]

theorem meanAbs_quiet : meanAbs (List.replicate 480 (0 : Int)) = 0 := by
  unfold meanAbs
  rw [List.map_replicate, List.sum_replicate]
  norm_num [i16abs]

theorem specMeanAbs_quiet : specMeanAbs (List.replicate 480 (0 : Int)) = 0 := by
  unfold specMeanAbs
  rw [List.map_replicate, List.sum_replicate]
  norm_num

theorem specMeanAbs_loud :
    specMeanAbs (List.replicate 480 (1000 : Int)) = 1000 := by
  unfold specMeanAbs
  rw [List.map_replicate, List.sum_replicate, List.length_replicate]
  norm_num

theorem noise_samples_counterexample :
    noise_samples calibCounterexample CALIBRATION_FRAMES =
      List.replicate 16 0 := by
  unfold noise_samples
  rw [calibCounterexample_frames]
  rw [show min CALIBRATION_FRAMES 17 = 16 from by norm_num [CALIBRATION_FRAMES]]
  have hcg : ∀ n ∈ List.range 16,
      (if (frameSlice calibCounterexample n).length = FRAME_SIZE
       then some (meanAbs (frameSlice calibCounterexample n)) else none) =
        (fun _ => some ((fun _ => (0 : ℚ)) n)) n := by
    intro n hn
    have h15 : n ≤ 15 := by have := List.mem_range.mp hn; omega
    rw [calibCounterexample_slice_quiet h15,
      if_pos (by simp [FRAME_SIZE]), meanAbs_quiet]
  rw [List.filterMap_congr hcg, filterMap_some_eq_map (fun _ => (0 : ℚ))]
  have : (List.range 16).map (fun _ => (0 : ℚ)) =
      List.replicate (List.range 16).length 0 := List.map_const _ _
  rw [this, List.length_range]

theorem calibrate_counterexample_val :
    calibrate_noise_level calibCounterexample CALIBRATION_FRAMES = 0 := by
  unfold calibrate_noise_level
  rw [noise_samples_counterexample]
  rw [if_pos (by simp)]
  rw [List.sum_replicate]
  simp

theorem specMeans_counterexample :
    specMeans CALIBRATION_FRAMES_ceil calibCounterexample =
      List.replicate 16 0 ++ [1000] := by
  unfold specMeans
  rw [calibCounterexample_frames]
  rw [show min CALIBRATION_FRAMES_ceil 17 = 17 from
    by norm_num [CALIBRATION_FRAMES_ceil]]
  rw [show (17 : Nat) = Nat.succ 16 from rfl, List.range_succ, List.map_append]
  congr 1
  · have hquiet : ∀ n ∈ List.range 16,
        specMeanAbs (frameSlice calibCounterexample n) = (fun _ => (0 : ℚ)) n := by
      intro n hn
      rw [calibCounterexample_slice_quiet
        (by have := List.mem_range.mp hn; omega)]
      exact specMeanAbs_quiet
    rw [List.map_congr_left hquiet]
    have : (List.range 16).map (fun _ => (0 : ℚ)) =
        List.replicate (List.range 16).length 0 := List.map_const _ _
    rw [this, List.length_range]
  · simp only [List.map_cons, List.map_nil, calibCounterexample_slice_loud,
      specMeanAbs_loud]

theorem noiseLevel_spec_counterexample_val :
    noiseLevel_spec CALIBRATION_FRAMES_ceil calibCounterexample =
      1000 / 17 / 32768 := by
  unfold noiseLevel_spec
  rw [specMeans_counterexample]
  rw [if_pos (by simp)]
  rw [List.sum_append, List.sum_replicate]
  norm_num

/-- C6 counterexample: the code computes `calibration_frames =
int(0.5 * 16000 / 480) = 16` (truncation), not `ceil(0.5 s / 0.03 s) = 17` as
the claim states. On a 17-frame clip whose 17th frame is the only loud one,
the code's calibration averages only the 16 quiet frames and returns noise
level 0, while the claimed ceil-frame recipe returns `(1000/17)/32768 ≠ 0`. -/
theorem calibrate_noise_level_ceil_counterexample :
    calibrate_noise_level calibCounterexample CALIBRATION_FRAMES = 0 ∧
    noiseLevel_spec CALIBRATION_FRAMES_ceil calibCounterexample =
      1000 / 17 / 32768 ∧
    calibrate_noise_level calibCounterexample CALIBRATION_FRAMES ≠
      noiseLevel_spec CALIBRATION_FRAMES_ceil calibCounterexample := by
  refine ⟨calibrate_counterexample_val, noiseLevel_spec_counterexample_val, ?_⟩
  rw [calibrate_counterexample_val, noiseLevel_spec_counterexample_val]
  norm_num

/-- C6 amended: the noise calibrator computes `noiseLevel` from exactly the
first `int(0.5 s · 16000 / 480) = 16` frames — the truncated (floor) count,
not the ceiling — or all complete frames if the clip has fewer: for each such
frame it takes the mean absolute sample amplitude, averages these means, and
normalizes by 32768 (for samples within `[-32767, 32767]`, where `numpy`'s
`int16` absolute value does not overflow, this value lies in `[0, 1]`); if no
calibration frame is available, `noiseLevel` defaults to 0.01. -/
theorem calibrate_noise_level_spec_floor (audio : List Int)
    (hrange : ∀ s ∈ audio, -32767 ≤ s ∧ s ≤ 32767) :
    calibrate_noise_level audio CALIBRATION_FRAMES =
      noiseLevel_spec CALIBRATION_FRAMES audio ∧
    0 ≤ calibrate_noise_level audio CALIBRATION_FRAMES ∧
    calibrate_noise_level audio CALIBRATION_FRAMES ≤ 1 ∧
    (audio.length < FRAME_SIZE →
      calibrate_noise_level audio CALIBRATION_FRAMES = 1 / 100) := by
  have hel : ∀ x ∈ noise_samples audio CALIBRATION_FRAMES, 0 ≤ x ∧ x ≤ 32767 := by
    intro x hx
    unfold noise_samples at hx
    obtain ⟨n, _, hfx⟩ := List.mem_filterMap.mp hx
    by_cases hg : (frameSlice audio n).length = FRAME_SIZE
    · rw [if_pos hg] at hfx
      have hb := meanAbs_eq_and_bounds (frameSlice audio n)
        (fun y hy => hrange y (frameSlice_subset audio n hy))
      have hx' : meanAbs (frameSlice audio n) = x := Option.some.inj hfx
      rw [hx'] at hb
      exact ⟨hb.2.1, hb.2.2⟩
    · rw [if_neg hg] at hfx
      exact absurd hfx (by simp)
  refine ⟨?_, ?_, ?_, ?_⟩
  · unfold calibrate_noise_level noiseLevel_spec
    rw [noise_samples_eq_specMeans audio CALIBRATION_FRAMES hrange]
  · unfold calibrate_noise_level
    split_ifs with hne
    · apply div_nonneg _ (by norm_num)
      apply div_nonneg (list_rat_sum_nonneg _ (fun x hx => (hel x hx).1))
      positivity
    · norm_num
  · unfold calibrate_noise_level
    split_ifs with hne
    · have hlpos : (0 : ℚ) < (noise_samples audio CALIBRATION_FRAMES).length := by
        have : 0 < (noise_samples audio CALIBRATION_FRAMES).length :=
          Nat.pos_of_ne_zero hne
        exact_mod_cast this
      have havg : (noise_samples audio CALIBRATION_FRAMES).sum /
          ((noise_samples audio CALIBRATION_FRAMES).length : ℚ) ≤ 32767 := by
        rw [div_le_iff₀ hlpos]
        calc (noise_samples audio CALIBRATION_FRAMES).sum
            ≤ (noise_samples audio CALIBRATION_FRAMES).length * 32767 :=
              list_rat_sum_le _ _ (fun x hx => (hel x hx).2)
          _ = 32767 * (noise_samples audio CALIBRATION_FRAMES).length := by ring
      rw [div_le_one (by norm_num)]
      linarith
    · norm_num
  · intro hlen
    have hzero : noise_samples audio CALIBRATION_FRAMES = [] := by
      unfold noise_samples
      rw [Nat.div_eq_of_lt hlen]
      rw [Nat.min_zero]
      rfl
    unfold calibrate_noise_level
    rw [hzero]
    simp

/-- Witness for `calibrate_noise_level_spec_floor`: the empty buffer is in
range, has no complete frame, and calibrates to the 0.01 default. -/
theorem calibrate_noise_level_spec_floor_witness :
    (∀ s ∈ ([] : List Int), -32767 ≤ s ∧ s ≤ 32767) ∧
    ([] : List Int).length < FRAME_SIZE ∧
    calibrate_noise_level [] CALIBRATION_FRAMES = 1 / 100 := by
  refine ⟨by simp, by norm_num [FRAME_SIZE], ?_⟩
  exact (calibrate_noise_level_spec_floor [] (by simp)).2.2.2
    (by norm_num [FRAME_SIZE])

/-! ## Result assembly (mpt_processor.py lines 97-230) -/

/-- Python 3 integer `round`: round half to even (banker's rounding), on
exact rationals. -/
def roundHalfEven (x : ℚ) : Int :=
  if x - ⌊x⌋ < 1 / 2 then ⌊x⌋
  else if 1 / 2 < x - ⌊x⌋ then ⌊x⌋ + 1
  else if ⌊x⌋ % 2 = 0 then ⌊x⌋ else ⌊x⌋ + 1

/-- `round(x, 2)` (lines 207 and 221). Every detected duration is a multiple
of 0.03 s, so no rounding tie (and no float-representation artifact) can occur
where this is applied. -/
def pyRound2 (x : ℚ) : ℚ := ((roundHalfEven (x * 100) : Int) : ℚ) / 100

/-- `round(x, 1)` (line 228). -/
def pyRound1 (x : ℚ) : ℚ := ((roundHalfEven (x * 10) : Int) : ℚ) / 10

/-- The `debug_info` dict (lines 208-213 and 223-229); `speech_percentage` is
`none` exactly when the dict carries no such key. -/
structure DebugInfo where
  speech_frames : Nat
  total_frames : Nat
  noise_threshold : ℚ
  vad_aggressiveness : Nat
  speech_percentage : Option ℚ
deriving DecidableEq

/-- The result dict of `detect_speech_with_calibration` (lines 204-230);
optional fields are `none` exactly when the corresponding key is absent. -/
structure ProcResult where
  success : Bool
  error : Option String
  mpt : ℚ
  classification : Option Classification
  debug_info : DebugInfo
deriving DecidableEq

/-- `total_frames = len(audio_data) // BYTES_PER_FRAME` (line 142), counted in
samples rather than bytes. -/
def totalFramesOf (audio : List Int) : Nat := audio.length / FRAME_SIZE

/-- The frame sequence scanned by the loop (lines 151-155). -/
def framesOf (audio : List Int) : List (List Int) :=
  (List.range (totalFramesOf audio)).map (frameSlice audio)

/-- Step 1 (lines 128-134): the calibrated `noise_threshold`. -/
def noiseOf (audio : List Int) : ℚ :=
  calibrate_noise_level audio CALIBRATION_FRAMES

/-- Step 2 (lines 136-139): the adaptive `vad_aggressiveness`. -/
def aggrOf (audio : List Int) : Nat :=
  determine_vad_aggressiveness (noiseOf audio)

/-- Step 3 (lines 141-195): the frame scan, with the oracle instantiated at
the calibrated aggressiveness (`webrtcvad.Vad(vad_aggressiveness)`, line 139). -/
def scanOf (vad : Nat → List Int → Option Bool) (audio : List Int) :
    DetectState :=
  detectLoopOracle (vad (aggrOf audio)) (framesOf audio) 0 initState

/-- The detected duration after the end-of-clip adjustment (lines 197-200). -/
def mptOf (vad : Nat → List Int → Option Bool) (audio : List Int) : ℚ :=
  finalizeMpt (scanOf vad audio)

/-- The static part of the too-short error message (line 206); the duration
text interpolated into it is irrelevant to every claim. -/
def errorTooShort : String := "Speech too short"

/-- Translation of the validation and result assembly of
`detect_speech_with_calibration` (lines 203-230), over the decoded sample
buffer and the injected Voice Activity Oracle. -/
def detect_speech_with_calibration (vad : Nat → List Int → Option Bool)
    (audio : List Int) : ProcResult :=
  if mptOf vad audio < MIN_SPEECH_DURATION then
    { success := false
      error := some errorTooShort
      mpt := pyRound2 (mptOf vad audio)
      classification := none
      debug_info :=
        { speech_frames := (scanOf vad audio).speech_frames
          total_frames := totalFramesOf audio
          noise_threshold := noiseOf audio
          vad_aggressiveness := aggrOf audio
          speech_percentage := none } }
  else
    { success := true
      error := none
      mpt := pyRound2 (mptOf vad audio)
      classification := some (classify_mpt (mptOf vad audio))
      debug_info :=
        { speech_frames := (scanOf vad audio).speech_frames
          total_frames := totalFramesOf audio
          noise_threshold := noiseOf audio
          vad_aggressiveness := aggrOf audio
          speech_percentage := some (pyRound1
            (((scanOf vad audio).speech_frames : ℚ) /
              (totalFramesOf audio : ℚ) * 100)) } }

/-- C3: for every input, `success = false` iff the detected duration is below
the 1.0 s minimum; both result shapes carry the rounded duration and the four
diagnostic counters (speech frame count, total frame count, noise level,
aggressiveness level), and the classification is attached exactly on the
success path. -/
theorem result_assembly_spec (vad : Nat → List Int → Option Bool)
    (audio : List Int) :
    ((detect_speech_with_calibration vad audio).success = false ↔
      mptOf vad audio < MIN_SPEECH_DURATION) ∧
    (detect_speech_with_calibration vad audio).mpt =
      pyRound2 (mptOf vad audio) ∧
    (detect_speech_with_calibration vad audio).debug_info.speech_frames =
      (scanOf vad audio).speech_frames ∧
    (detect_speech_with_calibration vad audio).debug_info.total_frames =
      totalFramesOf audio ∧
    (detect_speech_with_calibration vad audio).debug_info.noise_threshold =
      noiseOf audio ∧
    (detect_speech_with_calibration vad audio).debug_info.vad_aggressiveness =
      aggrOf audio ∧
    (detect_speech_with_calibration vad audio).classification =
      (if mptOf vad audio < MIN_SPEECH_DURATION then none
       else some (classify_mpt (mptOf vad audio))) := by
  unfold detect_speech_with_calibration
  by_cases h : mptOf vad audio < MIN_SPEECH_DURATION
  · rw [if_pos h, if_pos h]
    exact ⟨iff_of_true rfl h, rfl, rfl, rfl, rfl, rfl, rfl⟩
  · rw [if_neg h, if_neg h]
    exact ⟨iff_of_false (by simp) h, rfl, rfl, rfl, rfl, rfl, rfl⟩

/-- Witness for `result_assembly_spec` at a concrete input. -/
theorem result_assembly_spec_witness :
    (detect_speech_with_calibration (fun _ _ => some false) []).mpt =
      pyRound2 (mptOf (fun _ _ => some false) []) ∧
    ((detect_speech_with_calibration (fun _ _ => some false) []).success =
        false ↔
      mptOf (fun _ _ => some false) [] < MIN_SPEECH_DURATION) :=
  ⟨(result_assembly_spec (fun _ _ => some false) []).2.1,
   (result_assembly_spec (fun _ _ => some false) []).1⟩

/-- C7 counterexample: on an input with zero total frames, the returned
(below-minimum failure) result does not carry `speech_percentage = 0` — it
carries no `speech_percentage` diagnostic at all. There is also no guard on
the division: the success branch divides unconditionally; a zero-frame input
simply never reaches it. -/
theorem speech_percentage_zero_frames_counterexample :
    totalFramesOf ([] : List Int) = 0 ∧
    (detect_speech_with_calibration (fun _ _ => some false)
      []).debug_info.speech_percentage ≠ some 0 := by
  have hm : mptOf (fun _ _ => some false) [] = 0 := by
    unfold mptOf scanOf framesOf totalFramesOf
    rw [List.length_nil, Nat.zero_div, List.range_zero, List.map_nil]
    rfl
  constructor
  · unfold totalFramesOf
    rw [List.length_nil, Nat.zero_div]
  · unfold detect_speech_with_calibration
    rw [if_pos (by rw [hm]; norm_num [MIN_SPEECH_DURATION])]
    simp

/-- C7 amended: the `speech_percentage` diagnostic is computed only on the
success path (the division `speech_frames / total_frames` is evaluated
nowhere else); an input with zero total frames always takes the below-minimum
failure path (its detected duration is 0 < 1.0 s) and its result carries no
`speech_percentage` key, so the division is never performed with a zero
denominator. -/
theorem speech_percentage_success_only (vad : Nat → List Int → Option Bool)
    (audio : List Int) :
    (detect_speech_with_calibration vad audio).debug_info.speech_percentage =
      (if mptOf vad audio < MIN_SPEECH_DURATION then none
       else some (pyRound1 (((scanOf vad audio).speech_frames : ℚ) /
         (totalFramesOf audio : ℚ) * 100))) ∧
    (totalFramesOf audio = 0 →
      (detect_speech_with_calibration vad audio).success = false ∧
      (detect_speech_with_calibration vad audio).debug_info.speech_percentage =
        none ∧
      mptOf vad audio = 0) := by
  constructor
  · unfold detect_speech_with_calibration
    by_cases h : mptOf vad audio < MIN_SPEECH_DURATION
    · rw [if_pos h, if_pos h]
    · rw [if_neg h, if_neg h]
  · intro h0
    have hm : mptOf vad audio = 0 := by
      unfold mptOf scanOf framesOf
      rw [h0, List.range_zero, List.map_nil]
      rfl
    have hlt : mptOf vad audio < MIN_SPEECH_DURATION := by
      rw [hm]; norm_num [MIN_SPEECH_DURATION]
    unfold detect_speech_with_calibration
    rw [if_pos hlt]
    exact ⟨rfl, rfl, hm⟩

/-- Witness for `speech_percentage_success_only` on the empty buffer. -/
theorem speech_percentage_success_only_witness :
    totalFramesOf ([] : List Int) = 0 ∧
    (detect_speech_with_calibration (fun _ _ => some true) []).success = false ∧
    (detect_speech_with_calibration (fun _ _ =>
      some true) []).debug_info.speech_percentage = none ∧
    mptOf (fun _ _ => some true) [] = 0 := by
  have h0 : totalFramesOf ([] : List Int) = 0 := by
    unfold totalFramesOf
    rw [List.length_nil, Nat.zero_div]
  have h := (speech_percentage_success_only (fun _ _ => some true) []).2 h0
  exact ⟨h0, h.1, h.2.1, h.2.2⟩

/-- C10: every below-minimum failure result carries no classification and a
`debug_info` holding exactly the four diagnostic counters — speech frame
count, total frame count, noise threshold, aggressiveness — with no
`speech_percentage` key; the percentage and the classification are produced
only on the success path. -/
theorem failure_debug_exact_keys (vad : Nat → List Int → Option Bool)
    (audio : List Int)
    (h : (detect_speech_with_calibration vad audio).success = false) :
    (detect_speech_with_calibration vad audio).classification = none ∧
    (detect_speech_with_calibration vad audio).debug_info =
      { speech_frames := (scanOf vad audio).speech_frames
        total_frames := totalFramesOf audio
        noise_threshold := noiseOf audio
        vad_aggressiveness := aggrOf audio
        speech_percentage := none } := by
  by_cases hm : mptOf vad audio < MIN_SPEECH_DURATION
  · unfold detect_speech_with_calibration
    rw [if_pos hm]
    exact ⟨rfl, rfl⟩
  · exfalso
    unfold detect_speech_with_calibration at h
    rw [if_neg hm] at h
    exact absurd h (by simp)

/-- Witness for `failure_debug_exact_keys`: the empty buffer with an
always-failing oracle produces a failure result of exactly this shape. -/
theorem failure_debug_exact_keys_witness :
    (detect_speech_with_calibration (fun _ _ => none) []).success = false ∧
    (detect_speech_with_calibration (fun _ _ => none) []).classification =
      none ∧
    (detect_speech_with_calibration (fun _ _ =>
      none) []).debug_info.speech_percentage = none := by
  have hm : mptOf (fun _ _ => none) [] = 0 := by
    unfold mptOf scanOf framesOf totalFramesOf
    rw [List.length_nil, Nat.zero_div, List.range_zero, List.map_nil]
    rfl
  have hsucc :
      (detect_speech_with_calibration (fun _ _ => none) []).success = false := by
    unfold detect_speech_with_calibration
    rw [if_pos (by rw [hm]; norm_num [MIN_SPEECH_DURATION])]
  have h := failure_debug_exact_keys (fun _ _ => none) [] hsucc
  exact ⟨hsucc, h.1, by rw [h.2]⟩

end MPT
